import Mathlib

/-!
Verification of the Verilator scheduling stage (`V3Sched.cpp` and its timing/fork
companion file) against its natural-language specification.

The generated C++ statements that the scheduler emits are deeply embedded as the
`Stmt` type below; each builder of the source (`buildLoop`, `makeEvalLoop`,
`createTriggers`, `createSettle`, `createEval`, `TimingKit::createResume`,
`TimingKit::createCommit`, `prepareTiming`, `transformForks`,
`gatherLogicClasses`, `ForkVisitor::remapLocals`) is translated into a Lean
function producing (or classifying) values of these types.  Identifiers of
generated variables and functions are kept as the strings the source uses.
-/

namespace VSched

/-- Expressions occurring in the generated code (operand of `AstIf`, `AstWhile`,
`AstAssign`, trigger `set` calls, ...). `senExpr i` stands for the opaque boolean
expression that `SenExprBuilder::build` returns for the sensitivity tree with
identity `i` (the builder is an external collaborator). -/
inductive SExpr where
  | num (n : Nat)
  | varRef (v : String)
  | add (a b : SExpr)
  | gt (a b : SExpr)
  | eqE (a b : SExpr)
  | notE (a : SExpr)
  | logNot (a : SExpr)
  | trigAny (vec : String)
  | trigBit (vec : String) (index : Nat)
  | senExpr (senId : Nat)
deriving DecidableEq, Repr

/-- Statements of the generated code.  `trigSet`/`trigClear`/`trigOr`/`trigAndNot`
are the `VlTriggerVec` method calls (`set`, `clear`, `thisOr`, `andNot`) the
scheduler emits; `textBlock`/`textOut` model `AstTextBlock`/`AstText` (raw C++
text such as the `#ifdef VL_DEBUG` guards and the `VL_FATAL_MT` call);
`declVar` models an `AstVar` local declaration inserted into a function;
`schedCall` models an `AstCMethodHard` call on a timing-scheduler object. -/
inductive Stmt where
  | assign (v : String) (e : SExpr)
  | whileS (cond : SExpr) (body : List Stmt)
  | ifS (cond : SExpr) (thens : List Stmt) (elses : List Stmt)
  | call (f : String)
  | trigSet (vec : String) (index : Nat) (val : SExpr)
  | trigClear (vec : String)
  | trigOr (toVec : String) (fromVec : String)
  | trigAndNot (lhsVec : String) (aVec : String) (bVec : String)
  | textOut (s : String)
  | textBlock (nodes : List Stmt)
  | declVar (v : String)
  | schedCall (schedId : Nat) (method : String)

/-- `setVar` of the source: assign a constant to a variable. -/
def setVarS (v : String) (val : Nat) : Stmt := .assign v (.num val)

/-- `buildLoop` of the source: create the `__V<name>Continue` flag, set it to 1,
and loop while it is set, clearing it at the start of each iteration before the
body built by `build` (which receives the flag's name). -/
def buildLoop (name : String) (build : String → List Stmt) : List Stmt :=
  let condv := "__V" ++ name ++ "Continue"
  [setVarS condv 1, .whileS (.varRef condv) (setVarS condv 0 :: build condv)]

/-- The raw text block the source emits inside the iteration-limit failure
branch: dump call under `#ifdef VL_DEBUG`, then the `VL_FATAL_MT` invocation
with the message `"<name> region did not converge."`. -/
def convergeFailBlock (name trigDumpp file line : String) : Stmt :=
  .textBlock
    [ .textOut "#ifdef VL_DEBUG\n",
      .call trigDumpp,
      .textOut "#endif\n",
      .textOut ("VL_FATAL_MT(\"" ++ file ++ "\", " ++ line ++ ", \"\", "),
      .textOut ("\"" ++ name ++ " region did not converge.\");\n") ]

/-- `makeEvalLoop` of the source.  `convergeLimit` models
`v3Global.opt.convergeLimit()`; `file`/`line` model the top module's file
location used in the fatal message.  Returns the iteration counter variable and
the statement list, exactly as the source builds them. -/
def makeEvalLoop (tag name trigVscp trigDumpp : String)
    (computeTriggers makeBody : List Stmt)
    (convergeLimit : Nat) (file line : String) : String × List Stmt :=
  let counter := "__V" ++ tag ++ "IterCount"
  (counter,
    setVarS counter 0 ::
    buildLoop tag (fun continuep =>
      computeTriggers ++
      [ .ifS (.trigAny trigVscp)
          ([ setVarS continuep 1,
             .ifS (.gt (.varRef counter) (.num convergeLimit))
               [convergeFailBlock name trigDumpp file line] [],
             .assign counter (.add (.varRef counter) (.num 1)) ]
           ++ makeBody)
          [] ]))

/-- Transcription of the specification's description of the region convergence
loop (spec §4.4 / claim C1): initialize the iteration counter to 0 and the
continue flag to true; while continue: clear continue, run the trigger
computation, and if any trigger bit is set: set continue, fail fatally with
"<region> region did not converge." when the counter exceeds the convergence
limit (calling the dump procedure first, in debug builds only), increment the
counter, and run the body. -/
def specEvalLoop (tag name trigVscp trigDumpp : String)
    (computeTriggers makeBody : List Stmt)
    (convergeLimit : Nat) (file line : String) : String × List Stmt :=
  let counter := "__V" ++ tag ++ "IterCount"
  let contv := "__V" ++ tag ++ "Continue"
  (counter,
    [ setVarS counter 0,
      setVarS contv 1,
      .whileS (.varRef contv)
        (setVarS contv 0 ::
         computeTriggers ++
         [ .ifS (.trigAny trigVscp)
             ([ setVarS contv 1,
                .ifS (.gt (.varRef counter) (.num convergeLimit))
                  [convergeFailBlock name trigDumpp file line] [],
                .assign counter (.add (.varRef counter) (.num 1)) ]
              ++ makeBody)
             [] ]) ])

/-- One sensitivity specification (`AstSenTree`) handed to `createTriggers`:
`sid` is the tree's identity, `initDep` is the second component of
`SenExprBuilder::build`'s result (true when the expression depends on
initialization-time state), and `vtext` is the `V3EmitV::verilogForTree`
rendering used in the dump message. -/
structure SenSpec where
  sid : Nat
  initDep : Bool
  vtext : String
deriving DecidableEq, Repr

/-- The statements/locals the shared `SenExprBuilder` has accumulated, as
drained by `getAndClearInits` / `getAndClearPostUpdates` /
`getAndClearPreUpdates` / `getAndClearLocals` (each list in accumulation
order). -/
structure SenBuilderState where
  inits : List Stmt
  postUpdates : List Stmt
  preUpdates : List Stmt
  locals : List String

/-- The components assembled by `createTriggers` (the `TriggerKit` of the
source): trigger vector variable and width, compute and dump function names
and bodies, the sensitivity-to-trigger-index map (in encounter order), and the
statements spliced into the owning init function. -/
structure TriggerKitM where
  width : Nat
  vscp : String
  funcName : String
  funcStmts : List Stmt
  dumpName : String
  dumpStmts : List Stmt
  map : List (Nat × Nat)
  initStmts : List Stmt

/-- Index allocation of `ExtraTriggers::allocate`: the next index is the
current count of allocated descriptions. -/
def extraAllocate (descriptions : List String) (d : String) : Nat × List String :=
  (descriptions.length, descriptions ++ [d])

/-- Indices handed out by allocating, in order, every description of `ds`
starting from the empty `ExtraTriggers` (first component of each
`extraAllocate` step). -/
def extraIndicesOf : List String → List String → List Nat
  | _, [] => []
  | acc, d :: rest =>
    let (i, acc') := extraAllocate acc d
    i :: extraIndicesOf acc' rest

/-- The trigger computation statements of the `createTriggers` loop: one
`vec.set(i, <sen expression>)` per specification, indices consecutive from
`n0`. -/
def trigComputeStmts (vec : String) (n0 : Nat) : List SenSpec → List Stmt
  | [] => []
  | s :: rest => .trigSet vec n0 (.senExpr s.sid) :: trigComputeStmts vec (n0 + 1) rest

/-- The sensitivity-to-trigger-index map built by the `createTriggers` loop:
each specification, in encounter order, is paired with the next consecutive
index starting from `n0`. -/
def trigMap (n0 : Nat) : List SenSpec → List (Nat × Nat)
  | [] => []
  | s :: rest => (s.sid, n0) :: trigMap (n0 + 1) rest

/-- The initialization-time trigger statements accumulated by the
`createTriggers` loop: `vec.set(i, 1)` for exactly those specifications whose
builder result reports an initialization-time dependency or for which the
global `--x-initial-edge` policy is set. -/
def initialTrigsOf (vec : String) (xInitialEdge : Bool) (n0 : Nat) :
    List SenSpec → List Stmt
  | [] => []
  | s :: rest =>
    (if s.initDep || xInitialEdge then [Stmt.trigSet vec n0 (.num 1)] else [])
      ++ initialTrigsOf vec xInitialEdge (n0 + 1) rest

/-- The dump line printed when no trigger is pending. -/
def noTrigMsg : String := "VL_DBG_MSGF(\"         No triggers active\\n\");\n"

/-- The `addDebug` message of `createTriggers` for trigger `index` of region
`name` with detail `text`. -/
def debugMsg (name : String) (index : Nat) (text : String) : String :=
  "VL_DBG_MSGF(\"         '" ++ name ++ "' region trigger index "
    ++ toString index ++ " is active"
    ++ (if text = "" then "" else ": " ++ text) ++ "\\n\");\n"

/-- The `addDebug` detail text for an extra (synthetic) trigger. -/
def extraMsg (name : String) (description : String) : String :=
  "Internal '" ++ name ++ "' trigger - " ++ description

/-- Dump statements for the extra triggers: one guarded print per extra,
indices consecutive from `n0`. -/
def extraDumpIfs (vec name : String) (n0 : Nat) : List String → List Stmt
  | [] => []
  | d :: rest =>
    .ifS (.trigBit vec n0) [.textOut (debugMsg name n0 (extraMsg name d))] []
      :: extraDumpIfs vec name (n0 + 1) rest

/-- Dump statements for the sensitivity-derived triggers: one guarded print
per specification, indices consecutive from `n0`, detail text the Verilog
rendering of the specification. -/
def specDumpIfs (vec name : String) (n0 : Nat) : List SenSpec → List Stmt
  | [] => []
  | s :: rest =>
    .ifS (.trigBit vec n0) [.textOut (debugMsg name n0 s.vtext)] []
      :: specDumpIfs vec name (n0 + 1) rest

/-- The `#ifdef VL_DEBUG` text block `createTriggers` appends to the compute
function to call the dump function when runtime debug is enabled. -/
def debugDumpCallBlock (dumpName : String) : Stmt :=
  .textBlock
    [ .textOut "#ifdef VL_DEBUG\n",
      .textOut "if (VL_UNLIKELY(vlSymsp->_vm_contextp__->debug())) \x7b\n",
      .call dumpName,
      .textOut "\x7d\n",
      .textOut "#endif\n" ]

/-- `createTriggers` of the source.  Width is `|specs| + |extras|`; the extras
occupy indices `[0, extras.length)` and each specification gets the next
consecutive index in encounter order.  The compute function body is: the
builder's locals, then its pre-updates (both inserted at the front, preserving
their relative order), the per-specification `set` statements, the builder's
post-updates, the guarded first-call block with the initialization-time
triggers (only when there are any), and the debug dump-call block.  The dump
function prints `noTrigMsg` when no trigger is pending, else one line per set
bit; its body is deleted when `--protect-ids` is requested. -/
def createTriggers (name : String) (specs : List SenSpec) (extras : List String)
    (sb : SenBuilderState) (xInitialEdge protectIds : Bool) : TriggerKitM :=
  let vscp := "__V" ++ name ++ "Triggered"
  let nTriggers := specs.length + extras.length
  let funcName := "_eval_triggers__" ++ name
  let dumpName := "_dump_triggers__" ++ name
  let dumpBase : Stmt := .ifS (.trigAny vscp) [] [.textOut noTrigMsg]
  let initialTrigs := initialTrigsOf vscp xInitialEdge extras.length specs
  let didInit := "__V" ++ name ++ "DidInit"
  let funcStmts :=
    (sb.locals.map Stmt.declVar)
    ++ sb.preUpdates
    ++ trigComputeStmts vscp extras.length specs
    ++ sb.postUpdates
    ++ (if initialTrigs.isEmpty then []
        else [Stmt.ifS (.notE (.varRef didInit))
                (setVarS didInit 1 :: initialTrigs) []])
    ++ [debugDumpCallBlock dumpName]
  let dumpStmts :=
    if protectIds then []
    else dumpBase :: extraDumpIfs vscp name 0 extras
           ++ specDumpIfs vscp name extras.length specs
  { width := nTriggers
    vscp := vscp
    funcName := funcName
    funcStmts := funcStmts
    dumpName := dumpName
    dumpStmts := dumpStmts
    map := trigMap extras.length specs
    initStmts := sb.inits }

/-- Result of the settle builder: the generated functions it creates (in
creation order), the statements of the `_eval_settle` entry function, and the
trigger kit (when one is built). -/
structure SettleResult where
  createdFuncs : List String
  topStmts : List Stmt
  trig : Option TriggerKitM

/-- `TriggerKit::addFirstIterationTriggerAssignment`: insert, at the front of
the compute function, `vec.set(index, counter == 0)`. -/
def addFirstIterationTriggerAssignment (kit : TriggerKitM) (counter : String)
    (index : Nat) : TriggerKitM :=
  { kit with funcStmts :=
      .trigSet kit.vscp index (.eqE (.varRef counter) (.num 0)) :: kit.funcStmts }

/-- `createSettle` of the source.  The `_eval_settle` entry function is created
first; if there is no combinational and no hybrid logic the builder returns
right after that, having created no trigger vector and no loop.  Otherwise it
allocates the single "first iteration" extra trigger, builds the trigger kit
for the clocked/hybrid sensitivities of the (cloned) logic, orders the body via
the external `V3Order::order` collaborator (whose resulting function name is
the parameter `stlFuncName`), wraps compute and body into `makeEvalLoop`, adds
the first-iteration trigger assignment, and puts the loop into `_eval_settle`. -/
def createSettle (comb hybrid : List Nat) (specs : List SenSpec)
    (sb : SenBuilderState) (xInitialEdge protectIds : Bool)
    (stlFuncName : String) (convergeLimit : Nat) (file line : String) :
    SettleResult :=
  if comb.isEmpty && hybrid.isEmpty then
    { createdFuncs := ["_eval_settle"], topStmts := [], trig := none }
  else
    let extras := ["first iteration"]
    let firstIterationTrigger := 0
    let kit := createTriggers "stl" specs extras sb xInitialEdge protectIds
    let lp := makeEvalLoop "stl" "Settle" kit.vscp kit.dumpName
      [.call kit.funcName] [.call stlFuncName] convergeLimit file line
    let kit' := addFirstIterationTriggerAssignment kit lp.1 firstIterationTrigger
    { createdFuncs := ["_eval_settle", kit.funcName, kit.dumpName, stlFuncName]
      topStmts := lp.2
      trig := some kit' }

/-- Evaluation state for generated expressions: the contents of each trigger
vector, the integer value of each scalar variable, and an oracle for the
opaque sensitivity expressions produced by the external expression builder. -/
structure TState where
  trigs : String → List Bool
  vars : String → Nat
  sens : Nat → Bool

/-- Numeric evaluation of a generated expression (booleans as 0/1, as in the
generated C++). -/
def evalN (st : TState) : SExpr → Nat
  | .num n => n
  | .varRef v => st.vars v
  | .add a b => evalN st a + evalN st b
  | .gt a b => if evalN st a > evalN st b then 1 else 0
  | .eqE a b => if evalN st a = evalN st b then 1 else 0
  | .notE a => if evalN st a = 0 then 1 else 0
  | .logNot a => if evalN st a = 0 then 1 else 0
  | .trigAny vec => if (st.trigs vec).any id then 1 else 0
  | .trigBit vec i => if (st.trigs vec).getD i false then 1 else 0
  | .senExpr i => if st.sens i then 1 else 0

/-- A generated condition holds when it evaluates to a non-zero value. -/
def evalCond (st : TState) (e : SExpr) : Bool := evalN st e != 0

/-- The raw text printed by a list of `textOut` statements. -/
def stmtTexts (l : List Stmt) : List String :=
  l.filterMap (fun s => match s with | .textOut t => some t | _ => none)

/-- Print trace of straight-line guarded print code: the shape of the
generated trigger dump functions, which are a flat list of one-level `if`
statements whose branches contain only prints.  State is not modified (the
dump functions only read the trigger vector). -/
def runPrintStmts (st : TState) : List Stmt → List String
  | [] => []
  | .ifS c t e :: rest =>
    stmtTexts (if evalCond st c then t else e) ++ runPrintStmts st rest
  | .textOut s :: rest => s :: runPrintStmts st rest
  | _ :: rest => runPrintStmts st rest

/-- Dump lines of the extra triggers on a given bit valuation: one line per
set bit, in index order (transcribed from the specification's "one line per
set bit identifying the human-readable source"). -/
def extraDumpOut (name : String) (bit : Nat → Bool) (n0 : Nat) :
    List String → List String
  | [] => []
  | d :: rest =>
    (if bit n0 then [debugMsg name n0 (extraMsg name d)] else [])
      ++ extraDumpOut name bit (n0 + 1) rest

/-- Dump lines of the sensitivity-derived triggers on a given bit valuation:
one line per set bit, in index order. -/
def specDumpOut (name : String) (bit : Nat → Bool) (n0 : Nat) :
    List SenSpec → List String
  | [] => []
  | s :: rest =>
    (if bit n0 then [debugMsg name n0 s.vtext] else [])
      ++ specDumpOut name bit (n0 + 1) rest

/-- Modelled from the spec: the runtime trigger-vector operation
`VlTriggerVec::thisOr` (its C++ definition lives in the runtime headers, not
in the scheduling sources here).  Per the spec it "ORs its now-fired vector
bits forward into the successor's vector (propagate-and-accumulate, never
overwrite)": element-wise OR of the argument into the receiver. -/
def thisOr (toVec fromVec : List Bool) : List Bool :=
  List.zipWith (fun a b => a || b) toVec fromVec

/-- `createTriggerClearCall` of the source. -/
def createTriggerClearCall (vscp : String) : Stmt := .trigClear vscp

/-- `createTriggerSetCall` of the source: `toVscp.thisOr(fromVscp)`. -/
def createTriggerSetCall (toVscp fromVscp : String) : Stmt := .trigOr toVscp fromVscp

/-- `createTriggerAndNotCall` of the source: `lhsVscp.andNot(aVscp, bVscp)`. -/
def createTriggerAndNotCall (lhsVscp aVscp bVscp : String) : Stmt :=
  .trigAndNot lhsVscp aVscp bVscp

/-- The kind of a timing-scheduler object (its `VlDelayScheduler` /
`VlTriggerScheduler` / `VlDynamicTriggerScheduler` basic data type); `other`
stands for any non-scheduler type. -/
inductive SchedKind where
  | delay
  | trig
  | dynTrig
  | other
deriving DecidableEq, Repr

/-- One entry of `TimingKit::m_lbs`: an active whose sole statement is a
`resume()` call on the scheduler `schedId` of kind `kind`, sensitive to the
wait specification `senseId`, with the resume call's optional pin argument. -/
structure ResumeEntryM where
  schedId : Nat
  kind : SchedKind
  senseId : Nat
  pins : Option Nat
deriving DecidableEq, Repr

/-- One guarded commit emitted into the `_timing_commit` function: the guard
is the negation of the entry's wait specification and the statement is a
`commit()` call on the entry's scheduler (with the resume call's pins cloned). -/
structure CommitEntryM where
  guard : SExpr
  schedId : Nat
  pins : Option Nat
deriving DecidableEq, Repr

/-- The `TimingKit` of the source (resume actives, post-update statements for
the `act` trigger function, and per-variable external sensitivity domains). -/
structure TimingKitM where
  lbs : List ResumeEntryM
  postUpdates : List Stmt
  externalDomains : List (Nat × List Nat)

/-- The empty `TimingKit` (`return {}` of `prepareTiming`). -/
def emptyTimingKit : TimingKitM := ⟨[], [], []⟩

/-- `TimingKit::createResume`: null when there are no timing actives,
otherwise (a call to) the shared `_timing_resume` function holding them. -/
def createResume (tk : TimingKitM) : Option String :=
  if tk.lbs.isEmpty then none else some "_timing_resume"

/-- The per-entry loop of `TimingKit::createCommit`: fail fatally when a
resume's backing scheduler is not one of the delay / trigger / dynamic-trigger
kinds, and emit one guarded commit per trigger-kind entry (and only for
those), guarded by the negation of the entry's wait specification. -/
def createCommitEntries : List ResumeEntryM → Except String (List CommitEntryM)
  | [] => .ok []
  | e :: rest =>
    if e.kind = .other then .error "Unexpected type"
    else
      match createCommitEntries rest with
      | .error msg => .error msg
      | .ok tail =>
        if e.kind = .trig then
          .ok ({ guard := .logNot (.senExpr e.senseId),
                 schedId := e.schedId, pins := e.pins } :: tail)
        else
          .ok tail

/-- `TimingKit::createCommit`: null when no trigger-based scheduler exists,
otherwise (a call to) the `_timing_commit` function holding the guarded
commits. -/
def createCommit (tk : TimingKitM) : Except String (Option String) :=
  match createCommitEntries tk.lbs with
  | .error msg => .error msg
  | .ok es => .ok (if es.isEmpty then none else some "_timing_commit")

/-- One `AstCAwait` with a non-trivial wait condition: scheduler object, its
kind, the await's sensitivity tree, and the resume method's optional pin. -/
structure AwaitM where
  schedId : Nat
  kind : SchedKind
  senseId : Nat
  pins : Option Nat
deriving DecidableEq, Repr

/-- One process (`AstNodeProcedure`) as seen by `prepareTiming`'s visitor. -/
structure ProcM where
  isSuspendable : Bool
  awaits : List AwaitM
  writes : List Nat

/-- The await scan of `prepareTiming`: for each await whose sensitivity tree
has not been seen yet (`user1SetOnce`), emit one resume entry; a
dynamic-trigger scheduler additionally contributes a `doPostUpdates` post-update
statement. -/
def gatherResumes (seen : List Nat) : List AwaitM → List ResumeEntryM × List Stmt
  | [] => ([], [])
  | a :: rest =>
    if a.senseId ∈ seen then gatherResumes seen rest
    else
      let post := if a.kind = .dynTrig then [Stmt.schedCall a.schedId "doPostUpdates"]
                  else []
      let (es, ps) := gatherResumes (a.senseId :: seen) rest
      (⟨a.schedId, a.kind, a.senseId, a.pins⟩ :: es, post ++ ps)

/-- `prepareTiming` of the source: when the design uses no timing features the
empty kit is returned immediately; otherwise the awaits are scanned for resume
actives and post-updates, and every variable written by a suspendable process
is associated with the process's wait domains. -/
def prepareTiming (usesTiming : Bool) (procs : List ProcM) : TimingKitM :=
  if !usesTiming then emptyTimingKit
  else
    let (lbs, posts) := gatherResumes [] (procs.flatMap (·.awaits))
    let ext := procs.flatMap (fun p =>
      if p.isSuspendable then p.writes.map (fun w => (w, p.awaits.map (·.senseId)))
      else [])
    ⟨lbs, posts, ext⟩

/-- An `EvalKit` for an optional region (observed / reactive): trigger vector,
dump function and body function (the source stores these as three nullable
fields that are set together by `orderIfNonEmpty` — all null for an absent
region). -/
structure RegionKit where
  vscp : String
  dumpp : String
  funcp : String
deriving DecidableEq, Repr

/-- The `act` trigger-computation step of `createEval`: compute the current
triggers, then commit trigger awaits from the previous iteration (when a
commit function exists). -/
def actTriggerStmts (actTriggerComputep : String) (commit : Option String) :
    List Stmt :=
  [.call actTriggerComputep]
    ++ (match commit with | some f => [Stmt.call f] | none => [])

/-- The `act` body step of `createEval`: compute the `pre` triggers
(`preTrigs = actTrigs &~ nbaTrigs`), latch the active trigger flags under the
NBA trigger flags, resume triggered timing schedulers (when a resume function
exists), and invoke the body function. -/
def actBodyStmts (preTrigsp actVscp nbaVscp : String) (resume : Option String)
    (actFuncp : String) : List Stmt :=
  [ createTriggerAndNotCall preTrigsp actVscp nbaVscp,
    createTriggerSetCall nbaVscp actVscp ]
    ++ (match resume with | some f => [Stmt.call f] | none => [])
    ++ [.call actFuncp]

/-- The full Active eval loop of `createEval`. -/
def actEvalLoopStmts (actVscp actTriggerComputep actDumpp actFuncp
    preTrigsp nbaVscp : String) (commit resume : Option String)
    (convergeLimit : Nat) (file line : String) : List Stmt :=
  (makeEvalLoop "act" "Active" actVscp actDumpp
    (actTriggerStmts actTriggerComputep commit)
    (actBodyStmts preTrigsp actVscp nbaVscp resume actFuncp)
    convergeLimit file line).2

/-- The NBA body step of `createEval`: invoke the body function, then latch
the NBA trigger flags under the following region's trigger flags (when a
following region exists). -/
def nbaBodyStmts (nbaFuncp : String) (nextVscp : Option String)
    (nbaVscp : String) : List Stmt :=
  [.call nbaFuncp]
    ++ (match nextVscp with
        | some v => [createTriggerSetCall v nbaVscp]
        | none => [])

/-- The full NBA eval loop of `createEval`: its trigger step clears the NBA
triggers and then runs the entire Active eval loop. -/
def nbaEvalLoopStmts (actVscp actTriggerComputep actDumpp actFuncp
    preTrigsp nbaVscp nbaDumpp nbaFuncp : String) (nextVscp : Option String)
    (commit resume : Option String) (convergeLimit : Nat) (file line : String) :
    List Stmt :=
  (makeEvalLoop "nba" "NBA" nbaVscp nbaDumpp
    (createTriggerClearCall nbaVscp
      :: actEvalLoopStmts actVscp actTriggerComputep actDumpp actFuncp
           preTrigsp nbaVscp commit resume convergeLimit file line)
    (nbaBodyStmts nbaFuncp nextVscp nbaVscp)
    convergeLimit file line).2

/-- The Observed body step of `createEval`: invoke the body function, then
latch the Observed trigger flags under the Reactive trigger flags (when a
reactive region exists). -/
def obsBodyStmts (obsFuncp : String) (reactVscp : Option String)
    (obsVscp : String) : List Stmt :=
  [.call obsFuncp]
    ++ (match reactVscp with
        | some v => [createTriggerSetCall v obsVscp]
        | none => [])

/-- The nested region loops of `createEval` (Active inside NBA inside
Observed inside Reactive, with absent regions skipped transparently). -/
def evalTopLoopStmts (actVscp actTriggerComputep actDumpp actFuncp
    preTrigsp nbaVscp nbaDumpp nbaFuncp : String)
    (obsKit reactKit : Option RegionKit) (commit resume : Option String)
    (convergeLimit : Nat) (file line : String) : List Stmt :=
  let nextVscp := match obsKit with
    | some k => some k.vscp
    | none => reactKit.map (·.vscp)
  let nbaLoop := nbaEvalLoopStmts actVscp actTriggerComputep actDumpp actFuncp
    preTrigsp nbaVscp nbaDumpp nbaFuncp nextVscp commit resume
    convergeLimit file line
  let top1 := match obsKit with
    | some k =>
      (makeEvalLoop "obs" "Observed" k.vscp k.dumpp
        (createTriggerClearCall k.vscp :: nbaLoop)
        (obsBodyStmts k.funcp (reactKit.map (·.vscp)) k.vscp)
        convergeLimit file line).2
    | none => nbaLoop
  match reactKit with
  | some k =>
    (makeEvalLoop "react" "Reactive" k.vscp k.dumpp
      (createTriggerClearCall k.vscp :: top1)
      [.call k.funcp]
      convergeLimit file line).2
  | none => top1

/-- `createEval` of the source: the `_eval` entry function's statements are
the input-combinational loop (when present), then the nested region loops,
then the Postponed call (when present).  The timing commit and resume calls
are obtained from the timing kit (the commit construction can fail fatally on
an unrecognized scheduler kind, hence the `Except`). -/
def createEval (icoLoop : Option (List Stmt))
    (actVscp actTriggerComputep actDumpp actFuncp preTrigsp
     nbaVscp nbaDumpp nbaFuncp : String)
    (obsKit reactKit : Option RegionKit) (postponedFuncp : Option String)
    (tk : TimingKitM) (convergeLimit : Nat) (file line : String) :
    Except String (List Stmt) := do
  let commit ← createCommit tk
  let resume := createResume tk
  pure ((icoLoop.getD [])
    ++ evalTopLoopStmts actVscp actTriggerComputep actDumpp actFuncp
         preTrigsp nbaVscp nbaDumpp nbaFuncp obsKit reactKit commit resume
         convergeLimit file line
    ++ (match postponedFuncp with | some f => [Stmt.call f] | none => []))

/-- The kind flags of an `AstSenTree` together with whether the tree has more
than one `AstSenItem` (`sensesp()->nextp()` non-null). -/
structure SenTreeM where
  hasStatic : Bool
  hasInitial : Bool
  hasFinal : Bool
  hasCombo : Bool
  hasClocked : Bool
  multiItems : Bool
deriving DecidableEq, Repr, Fintype

/-- The node kind of an `AstActive`'s first statement, as far as the
classifier inspects it. -/
inductive BodyKind where
  | alwaysPostponed
  | alwaysObserved
  | alwaysReactive
  | plain
deriving DecidableEq, Repr, Fintype

/-- One `AstActive` (a logic fragment) as seen by `gatherLogicClasses`:
its sensitivity tree, the kind of its first statement, and whether it has any
statements at all. -/
structure ActiveM where
  senTree : SenTreeM
  bodyKind : BodyKind
  hasStmts : Bool
deriving DecidableEq, Repr, Fintype

/-- The classes `gatherLogicClasses` partitions logic into. -/
inductive LogicClass where
  | lcStatic
  | lcInitial
  | lcFinal
  | lcComb
  | lcPostponed
  | lcClocked
  | lcObserved
  | lcReactive
deriving DecidableEq, Repr, Fintype

/-- The classification chain of `gatherLogicClasses` for one fragment:
`none` means the (empty) fragment is discarded; an `error` is a fatal
internal-consistency failure (`UASSERT_OBJ`). -/
def classifyActive (a : ActiveM) : Except String (Option LogicClass) :=
  if !a.hasStmts then .ok none
  else if a.senTree.hasStatic then
    if a.senTree.multiItems then .error "static initializer with additional sensitivities"
    else .ok (some .lcStatic)
  else if a.senTree.hasInitial then
    if a.senTree.multiItems then .error "'initial' logic with additional sensitivities"
    else .ok (some .lcInitial)
  else if a.senTree.hasFinal then
    if a.senTree.multiItems then .error "'final' logic with additional sensitivities"
    else .ok (some .lcFinal)
  else if a.senTree.hasCombo then
    if a.senTree.multiItems then .error "combinational logic with additional sensitivities"
    else if a.bodyKind = .alwaysPostponed then .ok (some .lcPostponed)
    else .ok (some .lcComb)
  else if !a.senTree.hasClocked then .error "What else could it be?"
  else if a.bodyKind = .alwaysObserved then .ok (some .lcObserved)
  else if a.bodyKind = .alwaysReactive then .ok (some .lcReactive)
  else .ok (some .lcClocked)

deriving instance DecidableEq for Except

/-- Whether a classification outcome is a fatal internal-consistency failure
(an `UASSERT_OBJ` abort). -/
def isFatalR (r : Except String (Option LogicClass)) : Bool :=
  match r with
  | .error _ => true
  | .ok _ => false

/-- The fatal conditions named by the specification: a static, initial or
final specification carrying additional sensitivities, or a sensitivity kind
mapping to no known class. -/
def specFatalCond (a : ActiveM) : Bool :=
  ((a.senTree.hasStatic || a.senTree.hasInitial || a.senTree.hasFinal)
      && a.senTree.multiItems)
    || !(a.senTree.hasStatic || a.senTree.hasInitial || a.senTree.hasFinal
         || a.senTree.hasCombo || a.senTree.hasClocked)

/-- The exact complement of the classifier's abort conditions: some known
sensitivity kind applies, and if the specification has additional
sensitivities then none of the kinds that must be unconditional
(static/initial/final/combinational) applies. -/
def classifyOkCond (a : ActiveM) : Bool :=
  (!a.senTree.multiItems
      || (!a.senTree.hasStatic && !a.senTree.hasInitial && !a.senTree.hasFinal
          && !a.senTree.hasCombo))
    && (a.senTree.hasStatic || a.senTree.hasInitial || a.senTree.hasFinal
        || a.senTree.hasCombo || a.senTree.hasClocked)

/-- The `LogicClasses` collection of the source. -/
structure LogicClassesM where
  mStatic : List ActiveM
  mInitial : List ActiveM
  mFinal : List ActiveM
  mComb : List ActiveM
  mPostponed : List ActiveM
  mClocked : List ActiveM
  mObserved : List ActiveM
  mReactive : List ActiveM
deriving DecidableEq, Repr

/-- The empty `LogicClasses`. -/
def emptyLogicClasses : LogicClassesM := ⟨[], [], [], [], [], [], [], []⟩

/-- Add a classified fragment to its class. -/
def addToClass (c : LogicClass) (a : ActiveM) (r : LogicClassesM) : LogicClassesM :=
  match c with
  | .lcStatic => { r with mStatic := a :: r.mStatic }
  | .lcInitial => { r with mInitial := a :: r.mInitial }
  | .lcFinal => { r with mFinal := a :: r.mFinal }
  | .lcComb => { r with mComb := a :: r.mComb }
  | .lcPostponed => { r with mPostponed := a :: r.mPostponed }
  | .lcClocked => { r with mClocked := a :: r.mClocked }
  | .lcObserved => { r with mObserved := a :: r.mObserved }
  | .lcReactive => { r with mReactive := a :: r.mReactive }

/-- `gatherLogicClasses` of the source: classify every fragment in traversal
order, discarding empty ones and aborting on the first internal-consistency
failure. -/
def gatherLogicClasses : List ActiveM → Except String LogicClassesM
  | [] => .ok emptyLogicClasses
  | a :: rest => do
    let c ← classifyActive a
    let r ← gatherLogicClasses rest
    pure (match c with | some cls => addToClass cls a r | none => r)

/-- One variable reference inside a forked branch, as inspected by
`ForkVisitor::remapLocals`: the variable's name, whether its type is a fork
synchronization handle, whether it was declared before the fork (`user1`),
whether it is function-local, and the identity of its `AstVarScope` (used to
create at most one parameter per variable). -/
structure VarRefM where
  name : String
  isForkSync : Bool
  declaredBeforeFork : Bool
  isFuncLocal : Bool
  vscpId : Nat
deriving DecidableEq, Repr

/-- The join kind of a fork. -/
inductive JoinType where
  | join
  | joinAny
  | joinNone
deriving DecidableEq, Repr

/-- Outcome of `remapLocals` for one reference. -/
inductive RemapOutcome where
  | passByValue
  | byRef
  | skipLifetime
  | unsupported
deriving DecidableEq, Repr

/-- A reference is passed by value when it is a fork synchronization handle or
an intra-assignment temporary. -/
def passByValueOf (r : VarRefM) : Bool :=
  r.isForkSync || r.name.startsWith "__Vintra"

/-- The per-reference decision chain of `ForkVisitor::remapLocals`. -/
def remapDecision (jt : JoinType) (r : VarRefM) : RemapOutcome :=
  if passByValueOf r then .passByValue
  else if !r.declaredBeforeFork || !r.isFuncLocal then .skipLifetime
  else if jt = .join then .byRef
  else .unsupported

/-- The `E_UNSUPPORTED` diagnostic text of `remapLocals`. -/
def unsupportedMsg : String :=
  "Unsupported: variable local to a forking process accessed in a fork..join_any or fork..join_none"

/-- The reference scan of `remapLocals`: produce the new function's parameter
list (one parameter per distinct variable, flagged by-value or by-reference)
and the collected diagnostics; an unsupported reference is skipped (not
remapped) and scanning continues. -/
def remapLocalsGo (jt : JoinType) (seen : List Nat) :
    List VarRefM → List (VarRefM × Bool) × List String
  | [] => ([], [])
  | r :: rest =>
    match remapDecision jt r with
    | .skipLifetime => remapLocalsGo jt seen rest
    | .unsupported =>
      let (args, diags) := remapLocalsGo jt seen rest
      (args, unsupportedMsg :: diags)
    | dec =>
      if r.vscpId ∈ seen then remapLocalsGo jt seen rest
      else
        let (args, diags) := remapLocalsGo jt (r.vscpId :: seen) rest
        ((r, dec = .passByValue) :: args, diags)

/-- `ForkVisitor::remapLocals` over the references of a hoisted fork branch. -/
def remapLocals (jt : JoinType) (refs : List VarRefM) :
    List (VarRefM × Bool) × List String :=
  remapLocalsGo jt [] refs

/-- One branch (`AstBegin`) of a fork: its name, whether it contains awaits,
its (opaque) body statements and the variable references it makes. -/
structure BranchM where
  name : String
  hasAwaits : Bool
  body : List Nat
  refs : List VarRefM
deriving DecidableEq, Repr

/-- Statements of a function as seen by `transformForks`: opaque plain
statements, generated calls, and fork constructs. -/
inductive FStmt where
  | plain (n : Nat)
  | callF (f : String)
  | mkfork (jt : JoinType) (branches : List BranchM)

/-- A function of the netlist, for the fork transformation. -/
structure CFuncM where
  name : String
  stmts : List FStmt

/-- Lowering of one fork branch (`ForkVisitor::visit(AstBegin*)`): a branch
with awaits is hoisted into a new suspendable function and replaced by a call
to it (its references remapped, collecting diagnostics); a branch without
awaits is inlined in place. -/
def lowerBranch (jt : JoinType) (b : BranchM) :
    List FStmt × List CFuncM × List String :=
  if b.hasAwaits then
    let (_args, diags) := remapLocals jt b.refs
    ([.callF b.name], [⟨b.name, b.body.map .plain⟩], diags)
  else
    (b.body.map .plain, [], [])

/-- Lower all branches of a fork, concatenating replacement statements, new
functions and diagnostics. -/
def lowerForkBranches (jt : JoinType) : List BranchM →
    List FStmt × List CFuncM × List String
  | [] => ([], [], [])
  | b :: rest =>
    let (ss, fs, ds) := lowerBranch jt b
    let (ss', fs', ds') := lowerForkBranches jt rest
    (ss ++ ss', fs ++ fs', ds ++ ds')

/-- Rewrite the statements of one function: each fork is replaced by its
branches' lowering, everything else is kept. -/
def transformStmts : List FStmt → List FStmt × List CFuncM × List String
  | [] => ([], [], [])
  | .mkfork jt bs :: rest =>
    let (ss, fs, ds) := lowerForkBranches jt bs
    let (ss', fs', ds') := transformStmts rest
    (ss ++ ss', fs ++ fs', ds ++ ds')
  | s :: rest =>
    let (ss', fs', ds') := transformStmts rest
    (s :: ss', fs', ds')

/-- `transformForks` of the source: when the design uses no timing features
the netlist is left completely unchanged; otherwise every fork is rewritten,
the hoisted branch functions are added, and diagnostics are collected. -/
def transformForks (usesTiming : Bool) (netlist : List CFuncM) :
    List CFuncM × List String :=
  if !usesTiming then (netlist, [])
  else
    netlist.foldr (fun f (funcs, diags) =>
      let (ss, nf, ds) := transformStmts f.stmts
      (⟨f.name, ss⟩ :: nf ++ funcs, ds ++ diags)) ([], [])

end VSched

namespace VSched

/-- C1: every region loop built by `makeEvalLoop` has exactly the statement
sequence the specification describes: counter := 0; continue := true; while
continue: continue := false; compute triggers; if any trigger bit is set then
set continue, fail fatally (after a debug-build-only dump call) with
"<region> region did not converge." when the counter exceeds the convergence
limit, increment the counter, and run the body.  Exceeding the limit is fatal
(the only statement in the limit branch is the dump-then-fatal block), and the
loop's continue flag is set again only under the all-triggers test. -/
theorem c1_makeEvalLoop_implements_spec
    (tag name trigVscp trigDumpp : String)
    (computeTriggers makeBody : List Stmt)
    (convergeLimit : Nat) (file line : String) :
    makeEvalLoop tag name trigVscp trigDumpp computeTriggers makeBody
      convergeLimit file line
      = specEvalLoop tag name trigVscp trigDumpp computeTriggers makeBody
          convergeLimit file line := by
  simp [makeEvalLoop, specEvalLoop, buildLoop]

lemma trigMap_get? (specs : List SenSpec) : ∀ (n0 k : Nat) (h : k < specs.length),
    (trigMap n0 specs).get? k = some ((specs.get ⟨k, h⟩).sid, n0 + k) := by
  induction specs with
  | nil => intro n0 k h; simp at h
  | cons s rest ih =>
    intro n0 k h
    cases k with
    | zero => simp [trigMap]
    | succ k' =>
      have h' : k' < rest.length := Nat.lt_of_succ_lt_succ h
      have hrec := ih (n0 + 1) k' h'
      simp only [trigMap, List.get?_cons_succ, List.get_cons_succ]
      rw [show n0 + (k' + 1) = (n0 + 1) + k' by omega]
      exact hrec

lemma extraIndicesOf_eq_range' (ds : List String) : ∀ (acc : List String),
    extraIndicesOf acc ds = List.range' acc.length ds.length := by
  induction ds with
  | nil => intro acc; simp [extraIndicesOf]
  | cons d rest ih =>
    intro acc
    have := ih (acc ++ [d])
    simp only [extraIndicesOf, extraAllocate]
    rw [this]
    simp [List.range'_succ]

/-- C3: the trigger kit built by `createTriggers` has vector width
`|specifications| + |extras|`; the extra triggers occupy indices `0..E-1` in
allocation order, each specification receives the next consecutive index in
encounter order, and re-running the synthesis on the same specification set
and extras yields the identical index assignment. -/
theorem c3_createTriggers_width_and_indices (name : String) (specs : List SenSpec)
    (extras : List String) (sb : SenBuilderState) (x p : Bool) :
    (createTriggers name specs extras sb x p).width = specs.length + extras.length
    ∧ extraIndicesOf [] extras = List.range extras.length
    ∧ (∀ (k : Nat) (h : k < specs.length),
        (createTriggers name specs extras sb x p).map.get? k
          = some ((specs.get ⟨k, h⟩).sid, extras.length + k))
    ∧ (∀ (specs' : List SenSpec) (extras' : List String),
        specs' = specs → extras' = extras →
        (createTriggers name specs' extras' sb x p).map
          = (createTriggers name specs extras sb x p).map) := by
  refine ⟨rfl, ?_, ?_, ?_⟩
  · rw [extraIndicesOf_eq_range' extras []]
    simp only [List.length_nil]
    exact (List.range_eq_range' _).symm
  · intro k h
    simpa [createTriggers] using trigMap_get? specs extras.length k h
  · intro specs' extras' h1 h2
    rw [h1, h2]

/-- Witness for C3 at a concrete input: one extra trigger and one
specification, whose index is `extras.length + 0 = 1`. -/
theorem c3_witness :
    (createTriggers "act" [⟨5, false, "v"⟩] ["e"] ⟨[], [], [], []⟩ false false).map.get? 0
      = some (5, 1 + 0) := by
  have h := c3_createTriggers_width_and_indices "act" [⟨5, false, "v"⟩] ["e"]
    ⟨[], [], [], []⟩ false false
  exact h.2.2.1 0 (by decide)

lemma mem_initialTrigsOf (vec : String) (x : Bool) :
    ∀ (specs : List SenSpec) (n0 : Nat) (m : Stmt),
    m ∈ initialTrigsOf vec x n0 specs ↔
      ∃ (j : Nat) (h : j < specs.length),
        m = .trigSet vec (n0 + j) (.num 1) ∧ ((specs.get ⟨j, h⟩).initDep || x) = true := by
  intro specs
  induction specs with
  | nil => intro n0 m; simp [initialTrigsOf]
  | cons s rest ih =>
    intro n0 m
    constructor
    · intro hm
      simp only [initialTrigsOf, List.mem_append] at hm
      rcases hm with hm | hm
      · by_cases hc : (s.initDep || x) = true
        · refine ⟨0, by simp, ?_, by simpa using hc⟩
          simp [hc] at hm
          simpa using hm
        · simp [Bool.not_eq_true] at hc
          simp [hc] at hm
      · rcases (ih (n0 + 1) m).mp hm with ⟨j, hj, hms, hcond⟩
        refine ⟨j + 1, by simpa using Nat.succ_lt_succ hj, ?_, ?_⟩
        · rw [hms]; congr 1; omega
        · simpa using hcond
    · rintro ⟨j, hj, hms, hcond⟩
      simp only [initialTrigsOf, List.mem_append]
      cases j with
      | zero =>
        left
        simp only [List.get] at hcond
        simp [hcond, hms]
      | succ j' =>
        right
        have hj' : j' < rest.length := by
          simp only [List.length_cons] at hj
          omega
        refine (ih (n0 + 1) m).mpr ⟨j', hj', ?_, ?_⟩
        · rw [hms]; congr 1; omega
        · simpa using hcond

/-- C8: an initialization-time `set bit i := true` statement is accumulated
for a specification if and only if the expression builder reported an
initialization-time dependency for it, OR the global
"treat every initial value as an edge" policy flag is set (the two conditions
are independently OR'd); and whenever any such statement exists, the whole
accumulated list sits inside the guarded first-call (`DidInit`) block of the
trigger compute function. -/
theorem c8_initial_trigger_condition (vec : String) (x : Bool) (n0 : Nat)
    (specs : List SenSpec) (k : Nat) (h : k < specs.length) :
    ((Stmt.trigSet vec (n0 + k) (.num 1)) ∈ initialTrigsOf vec x n0 specs
       ↔ ((specs.get ⟨k, h⟩).initDep || x) = true)
    ∧ (∀ (name : String) (extras : List String) (sb : SenBuilderState) (p : Bool),
        initialTrigsOf ("__V" ++ name ++ "Triggered") x extras.length specs ≠ [] →
        Stmt.ifS (.notE (.varRef ("__V" ++ name ++ "DidInit")))
            (setVarS ("__V" ++ name ++ "DidInit") 1
              :: initialTrigsOf ("__V" ++ name ++ "Triggered") x extras.length specs) []
          ∈ (createTriggers name specs extras sb x p).funcStmts) := by
  constructor
  · constructor
    · intro hm
      rcases (mem_initialTrigsOf vec x specs n0 _).mp hm with ⟨j, hj, hms, hcond⟩
      have hkj : k = j := by
        have := hms
        injection this with h1 h2 h3
        omega
      subst hkj
      simpa using hcond
    · intro hc
      exact (mem_initialTrigsOf vec x specs n0 _).mpr ⟨k, h, rfl, hc⟩
  · intro name extras sb p hne
    have hE : (initialTrigsOf ("__V" ++ name ++ "Triggered") x extras.length specs).isEmpty
        = false := by
      cases hl : initialTrigsOf ("__V" ++ name ++ "Triggered") x extras.length specs with
      | nil => exact absurd hl hne
      | cons a l => simp
    simp [createTriggers, hE, List.mem_append]

/-- Witness for C8 at a concrete input: a single specification with an
initialization-time dependency and the policy flag clear. -/
theorem c8_witness :
    Stmt.trigSet "v" (0 + 0) (.num 1) ∈ initialTrigsOf "v" false 0 [⟨7, true, "t"⟩] :=
  (c8_initial_trigger_condition "v" false 0 [⟨7, true, "t"⟩] 0 (by decide)).1.mpr (by decide)

set_option maxRecDepth 8000 in
lemma classifyActive_cases : ∀ a : ActiveM,
    (a.hasStmts = false → classifyActive a = .ok none)
    ∧ (a.hasStmts = true → specFatalCond a = true → isFatalR (classifyActive a) = true)
    ∧ (a.hasStmts = true → classifyOkCond a = true →
        ∃ c, classifyActive a = .ok (some c)) := by decide

/-- C6: the classifier discards fragments with an empty body (they contribute
nothing to the gathered classes), fails fatally when a static/initial/final
specification carries additional sensitivities or when a fragment's
sensitivity kind maps to no known class, and otherwise assigns every
non-empty fragment exactly one class (existence plus uniqueness of the
assigned class). -/
theorem c6_classifier_totality (a : ActiveM) :
    (a.hasStmts = false →
       classifyActive a = .ok none
       ∧ ∀ rest, gatherLogicClasses (a :: rest) = gatherLogicClasses rest)
    ∧ (a.hasStmts = true → specFatalCond a = true → isFatalR (classifyActive a) = true)
    ∧ (a.hasStmts = true → classifyOkCond a = true →
        ∃ c, classifyActive a = .ok (some c))
    ∧ (∀ c₁ c₂, classifyActive a = .ok (some c₁) → classifyActive a = .ok (some c₂) →
        c₁ = c₂) := by
  refine ⟨?_, (classifyActive_cases a).2.1, (classifyActive_cases a).2.2, ?_⟩
  · intro h
    have hc := (classifyActive_cases a).1 h
    refine ⟨hc, ?_⟩
    intro rest
    cases hr : gatherLogicClasses rest with
    | error e =>
      simp only [gatherLogicClasses, hc, hr]
      rfl
    | ok r =>
      simp only [gatherLogicClasses, hc, hr]
      rfl
  · intro c₁ c₂ h1 h2
    rw [h1] at h2
    injection h2 with h3
    injection h3

/-- Witness for C6 at a concrete input: an empty-bodied static fragment is
discarded. -/
theorem c6_witness :
    classifyActive ⟨⟨true, false, false, false, false, false⟩, .plain, false⟩ = .ok none :=
  ((c6_classifier_totality ⟨⟨true, false, false, false, false, false⟩, .plain, false⟩).1 rfl).1

lemma createCommitEntries_ok (lbs : List ResumeEntryM)
    (h : ∀ e ∈ lbs, e.kind ≠ .other) :
    createCommitEntries lbs
      = .ok ((lbs.filter (fun e => e.kind == SchedKind.trig)).map
          (fun e => ⟨.logNot (.senExpr e.senseId), e.schedId, e.pins⟩)) := by
  induction lbs with
  | nil => rfl
  | cons e rest ih =>
    have he : e.kind ≠ .other := h e (List.mem_cons_self _ _)
    have hr := ih (fun x hx => h x (List.mem_cons_of_mem _ hx))
    by_cases ht : e.kind = .trig
    · simp [createCommitEntries, he, ht, hr, List.filter_cons]
    · simp [createCommitEntries, he, ht, hr, List.filter_cons]

lemma createCommitEntries_error_iff (lbs : List ResumeEntryM) :
    (∃ msg, createCommitEntries lbs = .error msg) ↔ ∃ e ∈ lbs, e.kind = .other := by
  induction lbs with
  | nil => simp [createCommitEntries]
  | cons e rest ih =>
    by_cases he : e.kind = .other
    · simp [createCommitEntries, he]
    · constructor
      · rintro ⟨msg, hmsg⟩
        cases hr : createCommitEntries rest with
        | error m2 =>
          rcases ih.mp ⟨m2, hr⟩ with ⟨x, hx, hk⟩
          exact ⟨x, List.mem_cons_of_mem _ hx, hk⟩
        | ok tail =>
          exfalso
          by_cases ht : e.kind = .trig <;>
            simp [createCommitEntries, he, hr, ht] at hmsg
      · rintro ⟨x, hx, hk⟩
        rcases List.mem_cons.mp hx with rfl | hx'
        · exact absurd hk he
        · rcases ih.mpr ⟨x, hx', hk⟩ with ⟨m, hm⟩
          exact ⟨m, by simp [createCommitEntries, he, hm]⟩

/-- C7: building the timing commit procedure fails fatally exactly when some
resume's backing scheduler is not of a recognized kind; when all kinds are
recognized, the commit procedure contains one commit call per trigger-based
resume entry and only for those, each guarded by the negation of the entry's
original wait specification, and `createCommit` returns null exactly when no
trigger-based scheduler exists. -/
theorem c7_createCommit_content (tk : TimingKitM) :
    ((∃ msg, createCommit tk = .error msg) ↔ ∃ e ∈ tk.lbs, e.kind = .other)
    ∧ ((∀ e ∈ tk.lbs, e.kind ≠ .other) →
        createCommitEntries tk.lbs
          = .ok ((tk.lbs.filter (fun e => e.kind == SchedKind.trig)).map
              (fun e => ⟨.logNot (.senExpr e.senseId), e.schedId, e.pins⟩))
        ∧ (createCommit tk = .ok none ↔ ∀ e ∈ tk.lbs, e.kind ≠ .trig)) := by
  constructor
  · constructor
    · rintro ⟨msg, hmsg⟩
      apply (createCommitEntries_error_iff tk.lbs).mp
      cases hr : createCommitEntries tk.lbs with
      | error m => exact ⟨m, rfl⟩
      | ok es => simp [createCommit, hr] at hmsg
    · intro hex
      rcases (createCommitEntries_error_iff tk.lbs).mpr hex with ⟨m, hm⟩
      exact ⟨m, by simp [createCommit, hm]⟩
  · intro h
    have hok := createCommitEntries_ok tk.lbs h
    refine ⟨hok, ?_⟩
    simp only [createCommit, hok]
    constructor
    · intro hnone e he htr
      have hmem : e ∈ tk.lbs.filter (fun x => x.kind == SchedKind.trig) :=
        List.mem_filter.mpr ⟨he, by simp [htr]⟩
      cases hfil : tk.lbs.filter (fun x => x.kind == SchedKind.trig) with
      | nil =>
        rw [hfil] at hmem
        simp at hmem
      | cons a l =>
        rw [hfil] at hnone
        simp at hnone
    · intro hall
      cases hfil : tk.lbs.filter (fun x => x.kind == SchedKind.trig) with
      | nil => simp [hfil]
      | cons a l =>
        exfalso
        have hmem : a ∈ tk.lbs.filter (fun x => x.kind == SchedKind.trig) := by
          rw [hfil]
          exact List.mem_cons_self a l
        have hsplit := List.mem_filter.mp hmem
        exact hall a hsplit.1 (by simpa using hsplit.2)

/-- Witness for C7 at a concrete input: a single trigger-based resume entry
yields exactly one guarded commit. -/
theorem c7_witness :
    createCommitEntries [⟨1, SchedKind.trig, 2, none⟩]
      = .ok (([(⟨1, SchedKind.trig, 2, none⟩ : ResumeEntryM)].filter
            (fun e => e.kind == SchedKind.trig)).map
          (fun e => ⟨.logNot (.senExpr e.senseId), e.schedId, e.pins⟩)) :=
  ((c7_createCommit_content ⟨[⟨1, SchedKind.trig, 2, none⟩], [], []⟩).2 (by decide)).1

lemma thisOr_getD : ∀ (a b : List Bool) (i : Nat), i < a.length → i < b.length →
    (thisOr a b).getD i false = (a.getD i false || b.getD i false) := by
  intro a
  induction a with
  | nil => intro b i h1 _; simp at h1
  | cons x xs ih =>
    intro b i h1 h2
    cases b with
    | nil => simp at h2
    | cons y ys =>
      cases i with
      | zero => simp [thisOr]
      | succ i' =>
        have e1 : i' < xs.length := by
          simp only [List.length_cons] at h1
          omega
        have e2 : i' < ys.length := by
          simp only [List.length_cons] at h2
          omega
        simpa [thisOr] using ih ys i' e1 e2

/-- C2 counterexample: in the generated active-region body step the OR of the
active trigger bits into the NBA vector comes BEFORE the invocation of the
active logic body function, so for the active→NBA pair the claim's "the
predecessor's body step, after running its logic, ORs the predecessor's
now-fired trigger bits into the successor's vector" is false: at this concrete
input the body is `[pre := act &~ nba, nba |= act, call act_body]`, and there
is no position of the logic call preceding a position of the OR. -/
theorem c2_counterexample :
    actBodyStmts "pre" "act" "nba" none "f"
        = [Stmt.trigAndNot "pre" "act" "nba", Stmt.trigOr "nba" "act", Stmt.call "f"]
    ∧ ¬ ∃ i j : Nat, i < j
        ∧ (actBodyStmts "pre" "act" "nba" none "f").get? i = some (Stmt.call "f")
        ∧ (actBodyStmts "pre" "act" "nba" none "f").get? j = some (Stmt.trigOr "nba" "act") := by
  constructor
  · rfl
  · rintro ⟨i, j, hij, hi, hj⟩
    have hlen : (actBodyStmts "pre" "act" "nba" none "f").length = 3 := rfl
    have hj3 : j < 3 := by
      by_contra hge
      push_neg at hge
      rw [List.get?_eq_none.mpr (by rw [hlen]; omega)] at hj
      exact Option.noConfusion hj
    have hi2 : i < 2 := by omega
    interval_cases i <;>
      simp [actBodyStmts, createTriggerAndNotCall, createTriggerSetCall] at hi

/-- C2 (amended): for every adjacent pair of nested region loops the
successor's trigger-computation step first clears the successor's own trigger
vector and then runs the predecessor's entire convergence loop, and the
predecessor's body step both runs its logic and ORs the predecessor's fired
trigger bits into the successor's vector — for the active→NBA pair the OR
precedes the logic call, for the NBA→observed, observed→reactive and
NBA→reactive pairs it follows it (propagate-and-accumulate either way); the
propagation operation sets the successor bit whenever the predecessor bit is
set and never clears a successor bit. -/
theorem c2_amended_propagation
    (actV actC actD actF preV nbaV nbaD nbaF obsV obsD obsF
     reactV reactD reactF : String)
    (nxt commit resume : Option String) (limit : Nat) (file line : String)
    (a b : List Bool) (i : Nat) (hia : i < a.length) (hib : i < b.length) :
    nbaEvalLoopStmts actV actC actD actF preV nbaV nbaD nbaF nxt commit resume
        limit file line
      = (makeEvalLoop "nba" "NBA" nbaV nbaD
          (createTriggerClearCall nbaV
            :: actEvalLoopStmts actV actC actD actF preV nbaV commit resume
                 limit file line)
          (nbaBodyStmts nbaF nxt nbaV) limit file line).2
    ∧ actBodyStmts preV actV nbaV resume actF
        = [createTriggerAndNotCall preV actV nbaV, createTriggerSetCall nbaV actV]
            ++ (match resume with | some f => [Stmt.call f] | none => [])
            ++ [Stmt.call actF]
    ∧ nbaBodyStmts nbaF (some obsV) nbaV
        = [Stmt.call nbaF, createTriggerSetCall obsV nbaV]
    ∧ obsBodyStmts obsF (some reactV) obsV
        = [Stmt.call obsF, createTriggerSetCall reactV obsV]
    ∧ evalTopLoopStmts actV actC actD actF preV nbaV nbaD nbaF
          (some ⟨obsV, obsD, obsF⟩) (some ⟨reactV, reactD, reactF⟩)
          commit resume limit file line
        = (makeEvalLoop "react" "Reactive" reactV reactD
            (createTriggerClearCall reactV ::
              (makeEvalLoop "obs" "Observed" obsV obsD
                (createTriggerClearCall obsV ::
                  nbaEvalLoopStmts actV actC actD actF preV nbaV nbaD nbaF
                    (some obsV) commit resume limit file line)
                (obsBodyStmts obsF (some reactV) obsV) limit file line).2)
            [Stmt.call reactF] limit file line).2
    ∧ evalTopLoopStmts actV actC actD actF preV nbaV nbaD nbaF
          none (some ⟨reactV, reactD, reactF⟩) commit resume limit file line
        = (makeEvalLoop "react" "Reactive" reactV reactD
            (createTriggerClearCall reactV ::
              nbaEvalLoopStmts actV actC actD actF preV nbaV nbaD nbaF
                (some reactV) commit resume limit file line)
            [Stmt.call reactF] limit file line).2
    ∧ (b.getD i false = true → (thisOr a b).getD i false = true)
    ∧ (a.getD i false = true → (thisOr a b).getD i false = true) := by
  refine ⟨rfl, rfl, rfl, rfl, rfl, rfl, ?_, ?_⟩
  · intro h
    rw [thisOr_getD a b i hia hib, h]
    simp
  · intro h
    rw [thisOr_getD a b i hia hib, h]
    simp

/-- Witness for C2 (amended) at a concrete input: a set predecessor bit is
set in the successor vector after propagation. -/
theorem c2_witness : (thisOr [false] [true]).getD 0 false = true := by
  have h := c2_amended_propagation "actV" "actC" "actD" "actF" "preV" "nbaV"
    "nbaD" "nbaF" "obsV" "obsD" "obsF" "reactV" "reactD" "reactF"
    none none none 0 "fl" "1" [false] [true] 0 (by decide) (by decide)
  exact h.2.2.2.2.2.2.1 rfl

/-- C4 counterexample: with zero combinational and zero hybrid fragments the
settle builder still creates a generated procedure — the (empty)
`_eval_settle` entry function is made before the emptiness check — so
"produces no generated procedure" is false at this concrete input (the
"no trigger vector" half does hold). -/
theorem c4_counterexample :
    (createSettle [] [] [] ⟨[], [], [], []⟩ false false "f" 100 "fl" "7").createdFuncs
        = ["_eval_settle"]
    ∧ (createSettle [] [] [] ⟨[], [], [], []⟩ false false "f" 100 "fl" "7").createdFuncs
        ≠ [] := by
  refine ⟨rfl, ?_⟩
  intro h
  simp [createSettle] at h

/-- C4 (amended): given zero combinational and zero hybrid fragments, the
settle builder produces no trigger vector (and no trigger kit, no convergence
loop and no statements), but it does still create the — then empty —
`_eval_settle` entry procedure, and nothing else. -/
theorem c4_amended_settle_noop (comb hybrid : List Nat) (specs : List SenSpec)
    (sb : SenBuilderState) (x p : Bool) (stlFuncName : String)
    (convergeLimit : Nat) (file line : String)
    (h1 : comb = []) (h2 : hybrid = []) :
    createSettle comb hybrid specs sb x p stlFuncName convergeLimit file line
      = { createdFuncs := ["_eval_settle"], topStmts := [], trig := none } := by
  subst h1
  subst h2
  rfl

/-- Witness for C4 (amended) at a concrete input. -/
theorem c4_witness :
    createSettle [] [] [] ⟨[], [], [], []⟩ true true "g" 5 "f2" "9"
      = { createdFuncs := ["_eval_settle"], topStmts := [], trig := none } :=
  c4_amended_settle_noop [] [] [] ⟨[], [], [], []⟩ true true "g" 5 "f2" "9" rfl rfl

lemma runPrintStmts_append (st : TState) : ∀ (l1 l2 : List Stmt),
    runPrintStmts st (l1 ++ l2) = runPrintStmts st l1 ++ runPrintStmts st l2 := by
  intro l1
  induction l1 with
  | nil => intro l2; rfl
  | cons s rest ih =>
    intro l2
    cases s <;> simp [runPrintStmts, ih]

lemma evalCond_trigBit (st : TState) (vec : String) (n : Nat) :
    evalCond st (.trigBit vec n) = (st.trigs vec).getD n false := by
  simp only [evalCond, evalN]
  cases h : (st.trigs vec).getD n false <;> rfl

lemma evalCond_trigAny (st : TState) (vec : String) :
    evalCond st (.trigAny vec) = (st.trigs vec).any id := by
  simp only [evalCond, evalN]
  cases h : (st.trigs vec).any id <;> rfl

lemma runPrint_extraDumpIfs (st : TState) (vec name : String) :
    ∀ (ds : List String) (n0 : Nat),
    runPrintStmts st (extraDumpIfs vec name n0 ds)
      = extraDumpOut name (fun j => (st.trigs vec).getD j false) n0 ds := by
  intro ds
  induction ds with
  | nil => intro n0; rfl
  | cons d rest ih =>
    intro n0
    simp only [extraDumpIfs, extraDumpOut, runPrintStmts, evalCond_trigBit]
    rw [ih (n0 + 1)]
    by_cases hb : (st.trigs vec).getD n0 false = true
    · rw [if_pos hb, if_pos hb]
      rfl
    · rw [if_neg hb, if_neg hb]
      rfl

lemma runPrint_specDumpIfs (st : TState) (vec name : String) :
    ∀ (specs : List SenSpec) (n0 : Nat),
    runPrintStmts st (specDumpIfs vec name n0 specs)
      = specDumpOut name (fun j => (st.trigs vec).getD j false) n0 specs := by
  intro specs
  induction specs with
  | nil => intro n0; rfl
  | cons s rest ih =>
    intro n0
    simp only [specDumpIfs, specDumpOut, runPrintStmts, evalCond_trigBit]
    rw [ih (n0 + 1)]
    by_cases hb : (st.trigs vec).getD n0 false = true
    · rw [if_pos hb, if_pos hb]
      rfl
    · rw [if_neg hb, if_neg hb]
      rfl

lemma getD_eq_false_of_any_eq_false : ∀ (v : List Bool), v.any id = false →
    ∀ j, v.getD j false = false := by
  intro v
  induction v with
  | nil => intro _ j; simp
  | cons x xs ih =>
    intro h j
    rw [List.any_cons] at h
    rcases Bool.or_eq_false_iff.mp h with ⟨hx, hrest⟩
    cases j with
    | zero => simpa [id] using hx
    | succ j' => simpa using ih hrest j'

lemma extraDumpOut_nil (name : String) (bit : Nat → Bool)
    (hb : ∀ j, bit j = false) : ∀ (ds : List String) (n0 : Nat),
    extraDumpOut name bit n0 ds = [] := by
  intro ds
  induction ds with
  | nil => intro n0; rfl
  | cons d rest ih => intro n0; simp [extraDumpOut, hb, ih]

lemma specDumpOut_nil (name : String) (bit : Nat → Bool)
    (hb : ∀ j, bit j = false) : ∀ (specs : List SenSpec) (n0 : Nat),
    specDumpOut name bit n0 specs = [] := by
  intro specs
  induction specs with
  | nil => intro n0; rfl
  | cons s rest ih => intro n0; simp [specDumpOut, hb, ih]

/-- C5 counterexample: on an all-zero trigger vector the dump procedure does
NOT print nothing — it prints the "No triggers active" line (so the claim's
"prints nothing when the trigger vector is all-zero" is false at this
concrete input). -/
theorem c5_counterexample :
    runPrintStmts ⟨fun _ => [false, false], fun _ => 0, fun _ => false⟩
        (createTriggers "stl" [⟨3, false, "@(posedge clk)"⟩] ["first iteration"]
          ⟨[], [], [], []⟩ false false).dumpStmts
      = [noTrigMsg]
    ∧ [noTrigMsg] ≠ ([] : List String) := by
  refine ⟨rfl, ?_⟩
  intro h
  simp at h

/-- C5 (amended): the dump procedure prints exactly the "No triggers active"
diagnostic line when the trigger vector is all-zero, and otherwise one line
per set bit identifying the human-readable source of that bit (extras first,
then the sensitivity-derived bits, in index order); when identifier
obfuscation (`--protect-ids`) is requested the dump procedure's body is
deleted, so it prints nothing. -/
theorem c5_amended_dump_output (name : String) (specs : List SenSpec)
    (extras : List String) (sb : SenBuilderState) (x : Bool) (st : TState) :
    (runPrintStmts st (createTriggers name specs extras sb x false).dumpStmts
       = (if (st.trigs ("__V" ++ name ++ "Triggered")).any id then []
          else [noTrigMsg])
         ++ extraDumpOut name
              (fun j => (st.trigs ("__V" ++ name ++ "Triggered")).getD j false)
              0 extras
         ++ specDumpOut name
              (fun j => (st.trigs ("__V" ++ name ++ "Triggered")).getD j false)
              extras.length specs)
    ∧ ((st.trigs ("__V" ++ name ++ "Triggered")).any id = false →
        runPrintStmts st (createTriggers name specs extras sb x false).dumpStmts
          = [noTrigMsg])
    ∧ (createTriggers name specs extras sb x true).dumpStmts = [] := by
  have h1 : runPrintStmts st (createTriggers name specs extras sb x false).dumpStmts
      = (if (st.trigs ("__V" ++ name ++ "Triggered")).any id then []
         else [noTrigMsg])
        ++ extraDumpOut name
             (fun j => (st.trigs ("__V" ++ name ++ "Triggered")).getD j false)
             0 extras
        ++ specDumpOut name
             (fun j => (st.trigs ("__V" ++ name ++ "Triggered")).getD j false)
             extras.length specs := by
    cases hany : (st.trigs ("__V" ++ name ++ "Triggered")).any id <;>
      simp [createTriggers, runPrintStmts, evalCond_trigAny, hany, stmtTexts,
            runPrintStmts_append, runPrint_extraDumpIfs, runPrint_specDumpIfs]
  refine ⟨h1, ?_, by simp [createTriggers]⟩
  intro hany
  have hb : ∀ j, (st.trigs ("__V" ++ name ++ "Triggered")).getD j false = false :=
    getD_eq_false_of_any_eq_false _ hany
  rw [h1, hany]
  rw [extraDumpOut_nil name _ hb extras 0,
      specDumpOut_nil name _ hb specs extras.length]
  simp

/-- Witness for C5 (amended) at a concrete input: empty vector, no triggers
pending, the single diagnostic line is printed. -/
theorem c5_witness :
    runPrintStmts ⟨fun _ => [], fun _ => 0, fun _ => false⟩
        (createTriggers "a" [] [] ⟨[], [], [], []⟩ false false).dumpStmts
      = [noTrigMsg] :=
  (c5_amended_dump_output "a" [] [] ⟨[], [], [], []⟩ false
    ⟨fun _ => [], fun _ => 0, fun _ => false⟩).2.1 rfl

/-- C9: during fork lowering, a reference to a variable that is not passed by
value (not a fork synchronization handle, not an intra-assignment temporary),
is function-local and was declared before the fork, is — when the fork's join
type is join_any or join_none — rejected with the (localized, non-fatal)
`E_UNSUPPORTED` diagnostic and skipped: no parameter is created for it and the
remaining references are still processed (the scan continues, collecting the
diagnostic); a join-style fork shares such a variable by reference. -/
theorem c9_fork_local_rejection (jt : JoinType) (r : VarRefM)
    (hpv : passByValueOf r = false) (hdecl : r.declaredBeforeFork = true)
    (hloc : r.isFuncLocal = true) :
    ((jt = .joinAny ∨ jt = .joinNone) →
       remapDecision jt r = .unsupported
       ∧ ∀ (seen : List Nat) (rest : List VarRefM),
           remapLocalsGo jt seen (r :: rest)
             = ((remapLocalsGo jt seen rest).1,
                unsupportedMsg :: (remapLocalsGo jt seen rest).2))
    ∧ (jt = .join → remapDecision jt r = .byRef) := by
  constructor
  · intro hj
    have hdec : remapDecision jt r = .unsupported := by
      rcases hj with rfl | rfl <;> simp [remapDecision, hpv, hdecl, hloc]
    refine ⟨hdec, ?_⟩
    intro seen rest
    simp [remapLocalsGo, hdec]
  · intro hj
    subst hj
    simp [remapDecision, hpv, hdecl, hloc]

/-- Witness for C9 at a concrete input: a plain function-local declared before
a join_any fork is rejected as unsupported. -/
theorem c9_witness :
    remapDecision .joinAny ⟨"x", false, true, true, 0⟩ = .unsupported :=
  ((c9_fork_local_rejection .joinAny ⟨"x", false, true, true, 0⟩ rfl rfl rfl).1
    (Or.inl rfl)).1

/-- C10: with the global uses-timing flag false, `prepareTiming` returns the
empty timing kit, `transformForks` leaves the netlist completely unchanged
(and reports no diagnostics), `createResume` returns null and `createCommit`
returns null, and consequently the generated `_eval` function is assembled
with no timing resume or commit call anywhere: its statements equal the
assembly with both timing options absent, and the active region's trigger and
body steps contain exactly the non-timing statements. -/
theorem c10_no_timing_frame (procs : List ProcM) (netlist : List CFuncM)
    (icoLoop : Option (List Stmt))
    (actV actC actD actF preV nbaV nbaD nbaF : String)
    (obsKit reactKit : Option RegionKit) (postponedFuncp : Option String)
    (limit : Nat) (file line : String) :
    prepareTiming false procs = emptyTimingKit
    ∧ transformForks false netlist = (netlist, [])
    ∧ createResume (prepareTiming false procs) = none
    ∧ createCommit (prepareTiming false procs) = .ok none
    ∧ createEval icoLoop actV actC actD actF preV nbaV nbaD nbaF obsKit reactKit
        postponedFuncp (prepareTiming false procs) limit file line
      = .ok ((icoLoop.getD [])
          ++ evalTopLoopStmts actV actC actD actF preV nbaV nbaD nbaF obsKit
               reactKit none none limit file line
          ++ (match postponedFuncp with | some f => [Stmt.call f] | none => []))
    ∧ actTriggerStmts actC none = [Stmt.call actC]
    ∧ actBodyStmts preV actV nbaV none actF
        = [createTriggerAndNotCall preV actV nbaV, createTriggerSetCall nbaV actV,
           Stmt.call actF] := by
  exact ⟨rfl, rfl, rfl, rfl, rfl, rfl, rfl⟩

end VSched
